import Mathlib

/-!
Verification of the MHTH matchmaking core: a shallow embedding of the
match builder, the fitness evaluator, the periodic worker phases and the
session-token check, with theorems settling the specification claims.

Modelling conventions:
- Rust `f64` skill and ping arithmetic is embedded as exact rationals (`ℚ`);
- Rust `i32`/`i64` integers are embedded as `ℤ` (values stay far from the
  word-size bounds in every claim considered, except where a cast matters
  and is modelled explicitly, e.g. the `expires_at as u64` cast);
- UUIDs are embedded as `ℕ` tags; the fresh UUID of a hosted match is an
  explicit parameter;
- store (redis) effects are embedded as explicit oracle parameters: a
  boolean per store call telling whether that call succeeds, and lookup
  functions describing what the store returns.
-/

namespace MHTH

/-- Skill rating record (crate `skillratings`, `MhthRating`): `rating`,
`loadout_modifier` and `uncertainty` are `f64` in the source, embedded
as rationals. -/
structure MhthRating where
  rating : ℚ
  loadout_modifier : ℚ
  uncertainty : ℚ
deriving DecidableEq

/-- A queued player (`rpc/mod.rs`, struct `QueuedPlayer`). -/
structure QueuedPlayer where
  player_id : ℕ
  skillrating : MhthRating
  region : String
  ping : ℤ
  difficulty : ℤ
  join_mode : ℤ
  party_mode : ℤ
  party_ids : List String
  join_time : ℤ
deriving DecidableEq

/-- A formed room (`rpc/mod.rs`, struct `Match`). -/
structure Match where
  id : ℕ
  players : List QueuedPlayer
  region : String
  host_id : ℕ
deriving DecidableEq

/-- The protobuf join modes. -/
inductive JoinMode where
  | JoinOrCreateRoom
  | JoinRoom
  | CreateRoom
deriving DecidableEq

/-- Modelled from the spec: the protobuf file `protos/matchmaking.proto`
declaring the numeric values of `JoinMode` is not part of the sources;
the spec assigns JoinOrCreateRoom=0, JoinRoom=1, CreateRoom=2. Every
claim below compares `join_mode` against one of these values, so only
injectivity of the assignment matters. -/
def JoinMode.toInt : JoinMode → ℤ
  | .JoinOrCreateRoom => 0
  | .JoinRoom => 1
  | .CreateRoom => 2

/-- Ping deviation classes (`rpc/worker/can_match.rs`, enum `PingDeviation`). -/
inductive PingDeviation where
  | Excellent
  | Good
  | Disadvantage
  | Poor
  | Worst
deriving DecidableEq

/-- Errors of the match builder (`rpc/worker/can_match.rs`, enum `Error`). -/
inductive HostError where
  | JoinOnlyMode
  | OversidedParty (count : ℕ) (max : ℕ)
deriving DecidableEq

/-- `Match::MAX_PLAYERS` from `can_match.rs`. -/
def Match.MAX_PLAYERS : ℕ := 4

/-- `Match::host` from `can_match.rs`: reject a join-only host, reject an
oversized party, otherwise build the match with the host appended last.
The fresh UUIDv4 is the explicit `freshId` parameter. -/
def Match.host (player : QueuedPlayer) (party : List QueuedPlayer) (freshId : ℕ) :
    Except HostError Match :=
  if player.join_mode = JoinMode.JoinRoom.toInt then
    .error .JoinOnlyMode
  else if Match.MAX_PLAYERS < party.length + 1 then
    .error (.OversidedParty (party.length + 1) Match.MAX_PLAYERS)
  else
    .ok { id := freshId
          players := party ++ [player]
          region := player.region
          host_id := player.player_id }

/-- `more_than_minutes` from `can_match.rs`. The source reads the wall
clock and converts it through `time_since`, which can fail; the result of
that lookup is the explicit `time_since` parameter (`none` models the
failed lookup, in which case the player counts as not aged). Rust `i64`
division truncates toward zero, hence `Int.tdiv`. -/
def more_than_minutes (minutes joined_at : ℤ) (time_since : Option ℤ) : Bool :=
  match time_since with
  | none => false
  | some t => decide (minutes < (t - joined_at).tdiv 60)

/-- Mean ping of the players of a match (`is_player_fit`, `average_ping`). -/
def Match.average_ping (m : Match) : ℚ :=
  (((m.players.map (fun p => p.ping)).sum : ℤ) : ℚ) / (m.players.length : ℚ)

/-- Mean effective skill of the players of a match (`is_player_fit`,
`average_skill`). -/
def Match.average_skill (m : Match) : ℚ :=
  ((m.players.map (fun p => p.skillrating.rating + p.skillrating.loadout_modifier)).sum) /
    (m.players.length : ℚ)

/-- `Match::is_player_fit` from `can_match.rs`, the fitness ladder. -/
def Match.is_player_fit (m : Match) (player : QueuedPlayer) (time_since : Option ℤ) :
    Bool × PingDeviation :=
  if player.join_mode = JoinMode.CreateRoom.toInt ∨
      Match.MAX_PLAYERS ≤ m.players.length ∨ m.region ≠ player.region then
    (false, .Worst)
  else
    let percent_skill :=
      ((player.skillrating.rating + player.skillrating.loadout_modifier) /
        m.average_skill - 1) * 50
    if player.ping < 50 then (true, .Excellent)
    else if player.ping < 100 then (true, .Good)
    else if player.ping < 150 ∧ m.average_ping + 25 > (player.ping : ℚ) then
      (true, .Disadvantage)
    else if (player.ping < 150 ∧ more_than_minutes 1 player.join_time time_since = true) ∨
        (player.ping : ℚ) + percent_skill > 150 then
      (true, .Poor)
    else if player.ping < 150 then (false, .Disadvantage)
    else if 150 ≤ player.ping ∧ player.ping < 300 ∧
        more_than_minutes 3 player.join_time time_since = true then
      (true, .Poor)
    else (false, .Worst)

/-- Spec-side age test: `age_minutes(p) = (now − join_time) / 60` with floor
division, compared against a threshold; a failed time lookup counts as not
aged. Written from the words of the spec for the refinement claim C1. -/
def spec_aged_more_than (minutes join_time : ℤ) (now : Option ℤ) : Bool :=
  match now with
  | none => false
  | some t => decide (minutes < (t - join_time).fdiv 60)

/-- Spec-side fitness decision ladder, written from the words of the spec
for the refinement claim C1: hard rejects, then the seven-row ladder with
first match winning. -/
def spec_is_player_fit (m : Match) (player : QueuedPlayer) (now : Option ℤ) :
    Bool × PingDeviation :=
  if player.join_mode = JoinMode.CreateRoom.toInt ∨
      Match.MAX_PLAYERS ≤ m.players.length ∨ m.region ≠ player.region then
    (false, .Worst)
  else
    let percent_skill :=
      ((player.skillrating.rating + player.skillrating.loadout_modifier) /
        m.average_skill - 1) * 50
    if player.ping < 50 then (true, .Excellent)
    else if player.ping < 100 then (true, .Good)
    else if player.ping < 150 ∧ m.average_ping + 25 > (player.ping : ℚ) then
      (true, .Disadvantage)
    else if (player.ping < 150 ∧ spec_aged_more_than 1 player.join_time now = true) ∨
        (player.ping : ℚ) + percent_skill > 150 then
      (true, .Poor)
    else if player.ping < 150 then (false, .Disadvantage)
    else if 150 ≤ player.ping ∧ player.ping < 300 ∧
        spec_aged_more_than 3 player.join_time now = true then
      (true, .Poor)
    else (false, .Worst)

/-- Errors of the worker while creating a match (`rpc/worker/form_match.rs`,
enum `Error`). -/
inductive CreateError where
  | InvalidFriendId (id : String)
  | Redis
  | BitcodeDeser
  | CanMatch (e : HostError)
deriving DecidableEq

/-- Outcome of resolving one friend id against the store in
`create_match`: the UUID parse can fail, the store read can fail, the key
can be absent, the decode can fail, or a queued player is found. -/
inductive FriendLookup where
  | parseFail
  | redisErr
  | absent
  | decodeFail
  | found (q : QueuedPlayer)

/-- The party-resolution loop of `MatchmakingWorker::create_match`: a parse
failure, store error or decode failure aborts with the corresponding error,
an absent record is silently skipped, a found record joins the party. -/
def resolve_party (look : String → FriendLookup) : List String → Except CreateError (List QueuedPlayer)
  | [] => .ok []
  | f :: rest =>
    match look f with
    | .parseFail => .error (.InvalidFriendId f)
    | .redisErr => .error .Redis
    | .absent => resolve_party look rest
    | .decodeFail => .error .BitcodeDeser
    | .found q =>
      match resolve_party look rest with
      | .error e => .error e
      | .ok qs => .ok (q :: qs)

/-- `MatchmakingWorker::create_match` from `form_match.rs`. The worker
state that matters is `open_matches`; `look` resolves friend ids against
the store, `freshId` is the fresh match UUID, and `setExOk` tells whether
the `form_match` store write (SET with TTL) succeeds. The result carries
the new `open_matches` list and the returned boolean. Note the source
pushes the hosted match into `open_matches` before attempting the store
write, and on a failed write logs and returns `Ok(false)`. -/
def create_match (open_matches : List Match) (player : QueuedPlayer)
    (look : String → FriendLookup) (freshId : ℕ) (setExOk : Bool) :
    Except CreateError (List Match × Bool) :=
  if player.join_mode ≠ JoinMode.CreateRoom.toInt then
    .ok (open_matches, false)
  else
    match resolve_party look player.party_ids with
    | .error e => .error e
    | .ok party =>
      match Match.host player party freshId with
      | .error e => .error (.CanMatch e)
      | .ok hosted =>
        if setExOk then .ok (open_matches ++ [hosted], true)
        else .ok (open_matches ++ [hosted], false)

/-- The promotion loop at the end of `MatchmakingWorker::hosted_matches`
(`find_matches.rs`): iterate `open_matches` with the enumeration index `i`;
a match with at least 4 players has its `match:<id>` record deleted
(`delOk i` tells whether that DEL succeeds) and, on success, its encoding
is inserted into `matches:closed` with score `i` (`zaddOk i` tells whether
that ZADD succeeds; a ZADD error propagates out of the function); on a DEL
failure the match is only logged; a match with fewer than 4 players is kept.
The value is the rebuilt `open_matches` together with the performed
closed-set insertions `(match, score)`. -/
def promote_go (delOk zaddOk : ℕ → Bool) : List Match → ℕ → Except Unit (List Match × List (Match × ℕ))
  | [], _ => .ok ([], [])
  | m :: rest, i =>
    if 4 ≤ m.players.length then
      if delOk i then
        if zaddOk i then
          match promote_go delOk zaddOk rest (i + 1) with
          | .error e => .error e
          | .ok (opens, closed) => .ok (opens, (m, i) :: closed)
        else .error ()
      else promote_go delOk zaddOk rest (i + 1)
    else
      match promote_go delOk zaddOk rest (i + 1) with
      | .error e => .error e
      | .ok (opens, closed) => .ok (m :: opens, closed)

/-- The promotion phase of `hosted_matches`, starting the enumeration at 0. -/
def hosted_matches_promotion (open_matches : List Match) (delOk zaddOk : ℕ → Bool) :
    Except Unit (List Match × List (Match × ℕ)) :=
  promote_go delOk zaddOk open_matches 0

/-- `MatchmakingWorker::remove_matched_players` from `form_match.rs`: every
seated player is ZREMed from its player queue; a ZREM failure is only
logged, and the function always returns success. `zremOk` tells whether the
i-th removal succeeds; the list of failed removal indices is computed (the
source logs them) and discarded. -/
def remove_matched_players (open_matches : List Match) (zremOk : ℕ → Bool) :
    Except Unit Unit :=
  let seated := (open_matches.map (fun mtc => mtc.players)).flatten
  let failed := (List.range seated.length).filter (fun i => !zremOk i)
  let _ := failed
  .ok ()

/-- The loop of `MatchmakingWorker::start_matches` (`start_matches.rs`):
entries of `matches:closed` that fail to decode are skipped; each decodable
entry is ZREMed with the result unwrapped, so a ZREM failure panics, which
the embedding renders as `Except.error`. -/
def start_matches_go (zremOk : ℕ → Bool) : List (Option Match) → ℕ → ℕ → Except Unit ℕ
  | [], _, count => .ok count
  | e :: rest, i, count =>
    match e with
    | none => start_matches_go zremOk rest (i + 1) count
    | some _ =>
      if zremOk i then start_matches_go zremOk rest (i + 1) (count + 1)
      else .error ()

/-- `MatchmakingWorker::start_matches`: when the initial ZRANGE of
`matches:closed` fails the loop body is skipped and the count is 0;
otherwise the entries (as decode results) are processed in order. -/
def start_matches (zrangeOk : Bool) (entries : List (Option Match)) (zremOk : ℕ → Bool) :
    Except Unit ℕ :=
  if zrangeOk then start_matches_go zremOk entries 0 0 else .ok 0

/-- `TEN_MINUTES` from `rpc/server/mod.rs`. -/
def TEN_MINUTES : ℕ := 600

/-- `TWO_HOURS` from `rpc/server/mod.rs`, the TTL passed by `form_match`
to the store write persisting a serialized match under `match:<id>`. -/
def TWO_HOURS : ℕ := 720

/-- Error kinds of `tonic::Status` used by `check_auth`. -/
inductive StatusKind where
  | Unauthenticated
  | Internal
  | InvalidArgument
deriving DecidableEq

/-- A `tonic::Status`: an error kind and a message. -/
structure Status where
  kind : StatusKind
  msg : String
deriving DecidableEq

/-- `SessionClaims` from `rpc/server/auth.rs` (the `vars` map is elided,
it is never read by `check_auth`). -/
structure SessionClaims where
  token_id : String
  user_id : String
  username : String
  expires_at : ℤ
  issued_at : ℤ
deriving DecidableEq

/-- The authorization metadata value of a request, as seen by
`check_auth`: the result of `to_str` on the raw metadata (fails on
non-ASCII bytes) and the result of HMAC-SHA256 verification of the token
string (fails on an invalid signature or malformed payload). -/
structure TokenMeta where
  toStrResult : Option String
  verifyResult : Option SessionClaims
deriving DecidableEq

/-- The `claims.expires_at as u64` cast in `check_auth`: an `i64` cast to
`u64` wraps modulo 2^64. -/
def expires_at_u64 (c : SessionClaims) : ℕ :=
  (c.expires_at.emod (2 ^ 64)).toNat

/-- `check_auth` from `rpc/server/auth.rs`. `keyOk` is the result of
building the HMAC key from the encryption key, `auth` the authorization
metadata (`none` when the header is missing), `now_secs` the current Unix
time in seconds. A missing header and an expired token map to
`Unauthenticated`; the key failure, a non-string header and a failed
verification map to `Internal`. -/
def check_auth (keyOk : Bool) (auth : Option TokenMeta) (now_secs : ℕ) :
    Except Status Unit :=
  match auth with
  | some t =>
    if keyOk = false then .error ⟨.Internal, "Failed to verify token"⟩
    else
      match t.toStrResult with
      | none => .error ⟨.Internal, "Failed to verify token"⟩
      | some _ =>
        match t.verifyResult with
        | none => .error ⟨.Internal, "Failed to verify token"⟩
        | some claims =>
          if expires_at_u64 claims < now_secs then
            .error ⟨.Unauthenticated, "please refresh session token"⟩
          else .ok ()
  | none => .error ⟨.Unauthenticated, "No valid auth token"⟩

/-- The per-match shape guaranteed by the builder: between 1 and 4 players,
the host appended last (so `host_id` is the id of the last player), and the
region of the match equal to the region of the hosting player. -/
def match_invariant (mtc : Match) (hostp : QueuedPlayer) : Prop :=
  1 ≤ mtc.players.length ∧ mtc.players.length ≤ 4 ∧
    (mtc.players.getLast?.map (fun q => q.player_id)) = some mtc.host_id ∧
    mtc.region = hostp.region

/-- Default demo rating: rating 25, loadout modifier 1 (the defaults of
`MhthRating`). -/
def demo_rating : MhthRating := ⟨25, 1, 25 / 3⟩

/-- A demo player in region CAN with the default rating, parameterized by
id, join mode, ping and join time. -/
def demo_player (pid : ℕ) (jm png jt : ℤ) : QueuedPlayer :=
  { player_id := pid
    skillrating := demo_rating
    region := "CAN"
    ping := png
    difficulty := 0
    join_mode := jm
    party_mode := 1
    party_ids := []
    join_time := jt }

/-- A CAN host in CreateRoom mode with one declared party member. -/
def c2_host : QueuedPlayer :=
  { demo_player 1 2 20 0 with party_ids := ["2"] }

/-- A party member living in another region. -/
def member_us : QueuedPlayer :=
  { demo_player 2 1 20 0 with region := "US" }

/-- The match that `create_match` forms for `c2_host` when the store
resolves its party member to `member_us`. -/
def c2_bad_match : Match :=
  { id := 7, players := [member_us, c2_host], region := "CAN", host_id := 1 }

/-- A full four-player match. -/
def full4 : Match :=
  { id := 11
    players := [demo_player 2 1 20 0, demo_player 3 1 20 0,
                demo_player 5 1 20 0, demo_player 4 1 20 0]
    region := "CAN"
    host_id := 4 }

/-- A CAN host in CreateRoom mode with an empty party. -/
def c5_host : QueuedPlayer := demo_player 1 2 20 0

/-- The open match of claim C6: three players each at ping 20, region CAN,
rating 25, loadout modifier 1. -/
def c6_match : Match :=
  { id := 21
    players := [demo_player 2 1 20 0, demo_player 3 1 20 0, demo_player 4 1 20 0]
    region := "CAN"
    host_id := 4 }

/-- The candidate of claim C6: same region and skill as the match, join
mode JoinRoom, ping 101, parameterized by join time. -/
def c6_cand (jt : ℤ) : QueuedPlayer := demo_player 9 1 101 jt

/-- A token whose metadata converts to a string but whose HMAC
verification fails (invalid signature or malformed payload). -/
def bad_token : TokenMeta := ⟨some "tok", none⟩

theorem tdiv_sixty_gt_iff (a m : ℤ) (hm : 0 ≤ m) : m < a.tdiv 60 ↔ 60 * (m + 1) ≤ a := by
  rcases le_or_lt 0 a with h | h
  · rw [Int.tdiv_eq_ediv h (by norm_num)]
    omega
  · have hneg : a.tdiv 60 ≤ 0 := by
      have hnn : 0 ≤ (-a).tdiv 60 := Int.tdiv_nonneg (by omega) (by norm_num)
      rw [Int.neg_tdiv] at hnn
      omega
    constructor
    · intro hlt; omega
    · intro hle; omega

theorem fdiv_sixty_gt_iff (a m : ℤ) : m < a.fdiv 60 ↔ 60 * (m + 1) ≤ a := by
  rw [Int.fdiv_eq_ediv a (by norm_num : (0:ℤ) ≤ 60)]
  omega

theorem more_than_minutes_eq_spec_aged (k j : ℤ) (ts : Option ℤ) (hk : 0 ≤ k) :
    more_than_minutes k j ts = spec_aged_more_than k j ts := by
  cases ts with
  | none => rfl
  | some t =>
    show decide (k < (t - j).tdiv 60) = decide (k < (t - j).fdiv 60)
    rw [decide_eq_decide]
    rw [tdiv_sixty_gt_iff _ _ hk, fdiv_sixty_gt_iff]

theorem more_than_minutes_mono (k j1 j2 : ℤ) (ts : Option ℤ) (hk : 0 ≤ k) (hle : j2 ≤ j1)
    (h : more_than_minutes k j1 ts = true) : more_than_minutes k j2 ts = true := by
  cases ts with
  | none => exact h
  | some t =>
    have h1 : k < (t - j1).tdiv 60 := of_decide_eq_true h
    have h2 : 60 * (k + 1) ≤ t - j1 := (tdiv_sixty_gt_iff _ _ hk).mp h1
    exact decide_eq_true ((tdiv_sixty_gt_iff _ _ hk).mpr (by omega))

theorem mtm_one_eq : more_than_minutes 1 = spec_aged_more_than 1 := by
  funext j ts
  exact more_than_minutes_eq_spec_aged 1 j ts (by norm_num)

theorem mtm_three_eq : more_than_minutes 3 = spec_aged_more_than 3 := by
  funext j ts
  exact more_than_minutes_eq_spec_aged 3 j ts (by norm_num)

/-- C1: for every open match (a match has at least one player) and
candidate, `is_player_fit` returns exactly the decision ladder of the
spec: hard rejects for a CreateRoom candidate, a full match or a region
mismatch, then the seven-row ping/age/skill ladder with first match
winning, where the spec ages a candidate by floor division of its age in
seconds by 60 and a failed time lookup counts as not aged. -/
theorem c1_is_player_fit_matches_spec_ladder (m : Match) (cand : QueuedPlayer)
    (now : Option ℤ) (_h : 0 < m.players.length) :
    m.is_player_fit cand now = spec_is_player_fit m cand now := by
  unfold Match.is_player_fit spec_is_player_fit
  rw [mtm_one_eq, mtm_three_eq]

/-- Witness for C1 at a concrete one-player match and candidate. -/
theorem c1_is_player_fit_matches_spec_ladder_witness :
    0 < c6_match.players.length ∧
      c6_match.is_player_fit (c6_cand 0) (some 200) =
        spec_is_player_fit c6_match (c6_cand 0) (some 200) :=
  ⟨by decide, c1_is_player_fit_matches_spec_ladder c6_match (c6_cand 0) (some 200) (by decide)⟩

/-- C3: `Match::host` fails with JoinOnlyMode exactly when the player is in
JoinRoom mode; otherwise it fails with OversizedParty (carrying the count
`party.len() + 1` and the maximum 4) exactly when `party.len() + 1 > 4`;
otherwise it succeeds with `host_id` the id of the player, `region` the
region of the player, and `players` the party followed by the player. -/
theorem c3_host_spec (player : QueuedPlayer) (party : List QueuedPlayer) (freshId : ℕ) :
    (Match.host player party freshId = .error .JoinOnlyMode ↔
      player.join_mode = JoinMode.JoinRoom.toInt) ∧
    (player.join_mode ≠ JoinMode.JoinRoom.toInt →
      (Match.host player party freshId =
          .error (.OversidedParty (party.length + 1) Match.MAX_PLAYERS) ↔
        4 < party.length + 1)) ∧
    (player.join_mode ≠ JoinMode.JoinRoom.toInt → party.length + 1 ≤ 4 →
      Match.host player party freshId =
        .ok { id := freshId
              players := party ++ [player]
              region := player.region
              host_id := player.player_id }) := by
  refine ⟨?_, ?_, ?_⟩
  · constructor
    · intro h
      by_contra hmode
      unfold Match.host at h
      rw [if_neg hmode] at h
      split at h <;> simp at h
    · intro hmode
      unfold Match.host
      rw [if_pos hmode]
  · intro hmode
    unfold Match.host
    rw [if_neg hmode]
    constructor
    · intro h
      by_contra hsz
      rw [if_neg (by simpa [Match.MAX_PLAYERS] using hsz)] at h
      simp at h
    · intro hsz
      rw [if_pos (by simpa [Match.MAX_PLAYERS] using hsz)]
  · intro hmode hsz
    unfold Match.host
    rw [if_neg hmode, if_neg (by simp [Match.MAX_PLAYERS]; omega)]

/-- Witness for C3: a JoinOrCreateRoom host with an empty party succeeds
and is appended last. -/
theorem c3_host_spec_witness :
    Match.host (demo_player 1 0 20 0) [] 9 =
      .ok { id := 9
            players := [] ++ [demo_player 1 0 20 0]
            region := (demo_player 1 0 20 0).region
            host_id := (demo_player 1 0 20 0).player_id } :=
  (c3_host_spec (demo_player 1 0 20 0) [] 9).2.2 (by decide) (by decide)

theorem host_ok_shape (player : QueuedPlayer) (party : List QueuedPlayer) (freshId : ℕ)
    (mtc : Match) (h : Match.host player party freshId = .ok mtc) :
    match_invariant mtc player := by
  unfold Match.host at h
  split_ifs at h with h1 h2
  injection h with h
  subst h
  refine ⟨by simp, ?_, ?_, rfl⟩
  · simp [Match.MAX_PLAYERS] at h2
    simpa using h2
  · simp [List.getLast?_concat]

/-- C2 counterexample: the worker forms a match through `create_match`
whose resolved party member lives in region US while the host and the
match are in region CAN, so not every player of a formed match shares the
region of the host. -/
theorem c2_region_homogeneity_counterexample :
    create_match [] c2_host (fun _ => .found member_us) 7 true =
        .ok ([c2_bad_match], true) ∧
      member_us ∈ c2_bad_match.players ∧ member_us.region ≠ c2_bad_match.region := by
  refine ⟨rfl, by simp [c2_bad_match], by decide⟩

/-- C2 amended: every match formed by `Match::host` directly, or appended
to `open_matches` by the worker through `create_match`, has between 1 and
4 players, its `host_id` equal to the `player_id` of the last element of
`players`, and its `region` equal to the region of the hosting player; the
regions of resolved party members are not checked and may differ from the
region of the host. -/
theorem c2_formed_match_shape :
    (∀ player party freshId mtc, Match.host player party freshId = .ok mtc →
        match_invariant mtc player) ∧
    (∀ opens player look freshId setExOk res,
        create_match opens player look freshId setExOk = .ok res →
        ∀ mtc ∈ res.1, mtc ∈ opens ∨ match_invariant mtc player) := by
  refine ⟨host_ok_shape, ?_⟩
  intro opens player look freshId setExOk res h mtc hm
  unfold create_match at h
  by_cases h1 : player.join_mode ≠ JoinMode.CreateRoom.toInt
  · rw [if_pos h1] at h
    injection h with h
    subst h
    exact Or.inl hm
  · rw [if_neg h1] at h
    cases hres : resolve_party look player.party_ids with
    | error e => rw [hres] at h; simp at h
    | ok party =>
      rw [hres] at h
      dsimp only at h
      cases hh : Match.host player party freshId with
      | error e => rw [hh] at h; simp at h
      | ok hosted =>
        rw [hh] at h
        dsimp only at h
        have hres1 : res.1 = opens ++ [hosted] := by
          by_cases hs : setExOk = true
          · rw [if_pos hs] at h
            injection h with h; rw [← h]
          · rw [if_neg hs] at h
            injection h with h; rw [← h]
        rw [hres1] at hm
        rcases List.mem_append.mp hm with hin | hin
        · exact Or.inl hin
        · simp at hin
          subst hin
          exact Or.inr (host_ok_shape player party freshId mtc hh)

/-- Witness for C2 amended at the concrete mixed-region formed match. -/
theorem c2_formed_match_shape_witness : match_invariant c2_bad_match c2_host :=
  c2_formed_match_shape.1 c2_host [member_us] 7 c2_bad_match rfl

/-- C8: the `TWO_HOURS` constant that `form_match` passes as the TTL of the
`match:<id>` store write is 720 seconds in the source, not the 7200 seconds
its own name (and the spec) promises. -/
theorem c8_two_hours_is_720 : TWO_HOURS = 720 ∧ TWO_HOURS ≠ 7200 := by decide

/-- C5 counterexample: a CreateRoom host with an empty party whose
`form_match` store write fails. `create_match` returns `Ok(false)` but the
hosted match has already been pushed, so `open_matches` is not unchanged. -/
theorem c5_failed_write_counterexample :
    create_match [] c5_host (fun _ => .absent) 3 false =
        .ok ([{ id := 3, players := [c5_host], region := "CAN", host_id := 1 }], false) ∧
      ([{ id := 3, players := [c5_host], region := "CAN", host_id := 1 }] : List Match) ≠ [] := by
  exact ⟨rfl, by simp⟩

/-- C5 amended: when the store write persisting `match:<id>` fails, the
worker logs the error and `create_match` returns `Ok(false)`, but the match
has already been appended to `open_matches`: the list still gains exactly
that hosted match. -/
theorem c5_failed_write_still_appends (opens : List Match) (player : QueuedPlayer)
    (look : String → FriendLookup) (freshId : ℕ) (party : List QueuedPlayer) (hosted : Match)
    (hmode : player.join_mode = JoinMode.CreateRoom.toInt)
    (hparty : resolve_party look player.party_ids = .ok party)
    (hhost : Match.host player party freshId = .ok hosted) :
    create_match opens player look freshId false = .ok (opens ++ [hosted], false) := by
  unfold create_match
  rw [if_neg (by simp [hmode]), hparty]
  dsimp only
  rw [hhost]
  simp

/-- Witness for C5 amended at the concrete host with an empty party. -/
theorem c5_failed_write_still_appends_witness :
    create_match [] c5_host (fun _ => .absent) 3 false =
      .ok ([] ++ [{ id := 3, players := [c5_host], region := "CAN", host_id := 1 }], false) :=
  c5_failed_write_still_appends [] c5_host (fun _ => .absent) 3 []
    { id := 3, players := [c5_host], region := "CAN", host_id := 1 } (by decide) rfl rfl

/-- C10 counterexample: a request carrying a token whose HMAC verification
fails (invalid signature or malformed payload) is rejected by `check_auth`
with the Internal error kind, not Unauthenticated. -/
theorem c10_invalid_token_counterexample :
    check_auth true (some bad_token) 0 =
        .error { kind := .Internal, msg := "Failed to verify token" } ∧
      StatusKind.Internal ≠ StatusKind.Unauthenticated := by
  exact ⟨rfl, by decide⟩

/-- C10 amended: `check_auth` fails with the Unauthenticated kind exactly
when the authorization header is missing, or when the token verifies and
the current time is past `expires_at`; a failed HMAC key construction, a
non-string header value, an invalid signature or a malformed payload all
fail with the Internal kind instead. -/
theorem c10_unauthenticated_characterization (keyOk : Bool) (auth : Option TokenMeta)
    (now_secs : ℕ) (e : Status) (h : check_auth keyOk auth now_secs = .error e) :
    e.kind = StatusKind.Unauthenticated ↔
      (auth = none ∨
        ∃ t claims, auth = some t ∧ keyOk = true ∧ t.toStrResult.isSome = true ∧
          t.verifyResult = some claims ∧ expires_at_u64 claims < now_secs) := by
  unfold check_auth at h
  cases auth with
  | none =>
    injection h with h
    subst h
    simp
  | some t =>
    dsimp only at h
    cases keyOk with
    | false =>
      rw [if_pos rfl] at h
      injection h with h
      subst h
      simp
    | true =>
      rw [if_neg (by simp)] at h
      cases hts : t.toStrResult with
      | none =>
        rw [hts] at h
        injection h with h
        subst h
        simp [hts]
      | some s =>
        rw [hts] at h
        dsimp only at h
        cases hv : t.verifyResult with
        | none =>
          rw [hv] at h
          injection h with h
          subst h
          simp [hv]
        | some claims =>
          rw [hv] at h
          dsimp only at h
          by_cases hexp : expires_at_u64 claims < now_secs
          · rw [if_pos hexp] at h
            injection h with h
            subst h
            constructor
            · intro
              exact Or.inr ⟨t, claims, rfl, rfl, by simp [hts], hv, hexp⟩
            · intro
              rfl
          · rw [if_neg hexp] at h
            simp at h

/-- Witness for C10 amended at the missing-header request. -/
theorem c10_unauthenticated_characterization_witness :
    ({ kind := .Unauthenticated, msg := "No valid auth token" } : Status).kind =
        StatusKind.Unauthenticated ↔
      ((none : Option TokenMeta) = none ∨
        ∃ t claims, (none : Option TokenMeta) = some t ∧ true = true ∧
          t.toStrResult.isSome = true ∧ t.verifyResult = some claims ∧
          expires_at_u64 claims < 5) :=
  c10_unauthenticated_characterization true none 5
    { kind := .Unauthenticated, msg := "No valid auth token" } rfl

theorem promote_go_all_zadd (delOk : ℕ → Bool) (l : List Match) (i : ℕ) :
    promote_go delOk (fun _ => true) l i =
      .ok (l.filter (fun m => decide (m.players.length < 4)),
           ((List.enumFrom i l).filter
               (fun p => decide (4 ≤ p.2.players.length) && delOk p.1)).map
             (fun p => (p.2, p.1))) := by
  induction l generalizing i with
  | nil => rfl
  | cons m rest ih =>
    by_cases h4 : 4 ≤ m.players.length
    · by_cases hd : delOk i = true
      · simp [promote_go, h4, hd, ih, List.enumFrom, Nat.not_lt.mpr h4]
      · simp [promote_go, h4, hd, ih, List.enumFrom, Nat.not_lt.mpr h4,
          Bool.not_eq_true _ ▸ hd]
    · have h4n : m.players.length < 4 := Nat.not_le.mp h4
      simp [promote_go, h4, ih, List.enumFrom, h4n]

theorem promote_go_error_iff (delOk zaddOk : ℕ → Bool) (l : List Match) (i : ℕ) :
    promote_go delOk zaddOk l i = .error () ↔
      ∃ p ∈ List.enumFrom i l, 4 ≤ p.2.players.length ∧ delOk p.1 = true ∧ zaddOk p.1 = false := by
  induction l generalizing i with
  | nil => simp [promote_go, List.enumFrom]
  | cons m rest ih =>
    unfold promote_go
    by_cases h4 : 4 ≤ m.players.length
    · by_cases hd : delOk i = true
      · by_cases hz : zaddOk i = true
        · rw [if_pos h4, if_pos hd, if_pos hz]
          cases hrec : promote_go delOk zaddOk rest (i + 1) with
          | error e =>
            have : promote_go delOk zaddOk rest (i + 1) = .error () := by
              rw [hrec]
            simp only [List.enumFrom, List.mem_cons]
            constructor
            · intro
              rcases (ih (i + 1)).mp this with ⟨p, hp, hprop⟩
              exact ⟨p, Or.inr hp, hprop⟩
            · intro; trivial
          | ok v =>
            have hne : ¬promote_go delOk zaddOk rest (i + 1) = .error () := by
              rw [hrec]; simp
            simp only [List.enumFrom, List.mem_cons]
            constructor
            · intro habs
              exact absurd habs (by simp)
            · rintro ⟨p, hp | hp, hprop⟩
              · rw [hp] at hprop
                exact absurd hprop.2.2 (by simp [hz])
              · exact absurd ((ih (i + 1)).mpr ⟨p, hp, hprop⟩) hne
        · rw [if_pos h4, if_pos hd, if_neg hz]
          simp only [List.enumFrom, List.mem_cons]
          constructor
          · intro
            exact ⟨(i, m), Or.inl rfl, h4, hd, by simpa using hz⟩
          · intro; trivial
      · rw [if_pos h4, if_neg hd]
        rw [ih (i + 1)]
        simp only [List.enumFrom, List.mem_cons]
        constructor
        · rintro ⟨p, hp, hprop⟩
          exact ⟨p, Or.inr hp, hprop⟩
        · rintro ⟨p, hp | hp, hprop⟩
          · rw [hp] at hprop
            exact absurd hprop.2.1 hd
          · exact ⟨p, hp, hprop⟩
    · rw [if_neg h4]
      cases hrec : promote_go delOk zaddOk rest (i + 1) with
      | error e =>
        have : promote_go delOk zaddOk rest (i + 1) = .error () := by rw [hrec]
        simp only [List.enumFrom, List.mem_cons]
        constructor
        · intro
          rcases (ih (i + 1)).mp this with ⟨p, hp, hprop⟩
          exact ⟨p, Or.inr hp, hprop⟩
        · intro; trivial
      | ok v =>
        have hne : ¬promote_go delOk zaddOk rest (i + 1) = .error () := by
          rw [hrec]; simp
        simp only [List.enumFrom, List.mem_cons]
        constructor
        · intro habs
          exact absurd habs (by simp)
        · rintro ⟨p, hp | hp, hprop⟩
          · rw [hp] at hprop
            exact absurd hprop.1 h4
          · exact absurd ((ih (i + 1)).mpr ⟨p, hp, hprop⟩) hne

theorem start_go_error_iff (zremOk : ℕ → Bool) (l : List (Option Match)) (i count : ℕ) :
    start_matches_go zremOk l i count = .error () ↔
      ∃ p ∈ List.enumFrom i l, p.2.isSome = true ∧ zremOk p.1 = false := by
  induction l generalizing i count with
  | nil => simp [start_matches_go, List.enumFrom]
  | cons e rest ih =>
    unfold start_matches_go
    cases e with
    | none =>
      rw [ih (i + 1) count]
      simp only [List.enumFrom, List.mem_cons]
      constructor
      · rintro ⟨p, hp, hprop⟩
        exact ⟨p, Or.inr hp, hprop⟩
      · rintro ⟨p, hp | hp, hprop⟩
        · rw [hp] at hprop
          exact absurd hprop.1 (by simp)
        · exact ⟨p, hp, hprop⟩
    | some mtc =>
      by_cases hz : zremOk i = true
      · rw [if_pos hz, ih (i + 1) (count + 1)]
        simp only [List.enumFrom, List.mem_cons]
        constructor
        · rintro ⟨p, hp, hprop⟩
          exact ⟨p, Or.inr hp, hprop⟩
        · rintro ⟨p, hp | hp, hprop⟩
          · rw [hp] at hprop
            exact absurd hprop.2 (by simp [hz])
          · exact ⟨p, hp, hprop⟩
      · rw [if_neg hz]
        simp only [List.enumFrom, List.mem_cons]
        constructor
        · intro
          exact ⟨(i, some mtc), Or.inl rfl, rfl, by simpa using hz⟩
        · intro; trivial

/-- C4 counterexample: a full match whose `match:<id>` DEL fails is neither
promoted nor kept: the rebuilt `open_matches` is empty, while the claim
says the match is kept for the next tick. -/
theorem c4_del_failure_counterexample :
    hosted_matches_promotion [full4] (fun _ => false) (fun _ => true) = .ok ([], []) ∧
      full4 ∉ ([] : List Match) := by
  exact ⟨rfl, by simp⟩

/-- C4 amended: in the promotion phase, every match with at least 4 players
has its `match:<id>` record deleted; on deletion success its encoding is
inserted into `matches:closed` with score equal to its enumeration index;
on deletion failure the worker logs and the match is dropped from
`open_matches` (it is not kept for the next tick); every match with fewer
than 4 players is kept. Stated for runs where every `matches:closed`
insertion succeeds (a failing insertion aborts the phase, see C9). -/
theorem c4_promotion_behavior (opens : List Match) (delOk : ℕ → Bool) :
    hosted_matches_promotion opens delOk (fun _ => true) =
      .ok (opens.filter (fun m => decide (m.players.length < 4)),
           ((List.enumFrom 0 opens).filter
               (fun p => decide (4 ≤ p.2.players.length) && delOk p.1)).map
             (fun p => (p.2, p.1))) :=
  promote_go_all_zadd delOk opens 0

/-- C9 counterexample: a failing ZADD of a full match into `matches:closed`
makes the promotion phase of `hosted_matches` return the store error (the
tick does not return success), and a failing ZREM of a closed-set entry in
`start_matches` panics, embedded as an error. -/
theorem c9_store_error_counterexample :
    hosted_matches_promotion [full4] (fun _ => true) (fun _ => false) = .error () ∧
      start_matches true [some full4] (fun _ => false) = .error () := by
  exact ⟨rfl, rfl⟩

/-- C9 amended: eviction-phase ZREM failures are logged and
`remove_matched_players` always returns success, and promotion-phase DEL
failures are swallowed; but `hosted_matches` fails exactly when some full
match whose DEL succeeded has its `matches:closed` insertion fail, and
`start_matches` panics exactly when its ZRANGE succeeded and the ZREM of
some decodable closed entry fails. -/
theorem c9_tick_error_characterization :
    (∀ opens zremOk, remove_matched_players opens zremOk = .ok ()) ∧
    (∀ opens delOk zaddOk,
        hosted_matches_promotion opens delOk zaddOk = .error () ↔
          ∃ p ∈ List.enumFrom 0 opens,
            4 ≤ p.2.players.length ∧ delOk p.1 = true ∧ zaddOk p.1 = false) ∧
    (∀ zrangeOk entries zremOk,
        start_matches zrangeOk entries zremOk = .error () ↔
          zrangeOk = true ∧
            ∃ p ∈ List.enumFrom 0 entries, p.2.isSome = true ∧ zremOk p.1 = false) := by
  refine ⟨fun opens zremOk => rfl, fun opens delOk zaddOk => promote_go_error_iff delOk zaddOk opens 0, ?_⟩
  intro zrangeOk entries zremOk
  unfold start_matches
  cases zrangeOk with
  | false => simp
  | true =>
    rw [if_pos rfl]
    rw [start_go_error_iff zremOk entries 0 0]
    simp

theorem fit_branch4_eval (m : Match) (p : QueuedPlayer) (ts : Option ℤ)
    (h0 : ¬(p.join_mode = JoinMode.CreateRoom.toInt ∨ Match.MAX_PLAYERS ≤ m.players.length ∨
        m.region ≠ p.region))
    (h1 : ¬p.ping < 50) (h2 : ¬p.ping < 100)
    (h3 : ¬(p.ping < 150 ∧ m.average_ping + 25 > (p.ping : ℚ)))
    (h4 : (p.ping < 150 ∧ more_than_minutes 1 p.join_time ts = true) ∨
        (p.ping : ℚ) + ((p.skillrating.rating + p.skillrating.loadout_modifier) /
          m.average_skill - 1) * 50 > 150) :
    m.is_player_fit p ts = (true, .Poor) := by
  unfold Match.is_player_fit
  rw [if_neg h0]
  dsimp only
  rw [if_neg h1, if_neg h2, if_neg h3, if_pos h4]

theorem fit_branch5_eval (m : Match) (p : QueuedPlayer) (ts : Option ℤ)
    (h0 : ¬(p.join_mode = JoinMode.CreateRoom.toInt ∨ Match.MAX_PLAYERS ≤ m.players.length ∨
        m.region ≠ p.region))
    (h1 : ¬p.ping < 50) (h2 : ¬p.ping < 100)
    (h3 : ¬(p.ping < 150 ∧ m.average_ping + 25 > (p.ping : ℚ)))
    (h4 : ¬((p.ping < 150 ∧ more_than_minutes 1 p.join_time ts = true) ∨
        (p.ping : ℚ) + ((p.skillrating.rating + p.skillrating.loadout_modifier) /
          m.average_skill - 1) * 50 > 150))
    (h5 : p.ping < 150) :
    m.is_player_fit p ts = (false, .Disadvantage) := by
  unfold Match.is_player_fit
  rw [if_neg h0]
  dsimp only
  rw [if_neg h1, if_neg h2, if_neg h3, if_neg h4, if_pos h5]

theorem c6_avg_ping : c6_match.average_ping = 20 := by
  norm_num [Match.average_ping, c6_match, demo_player]

theorem c6_avg_skill : c6_match.average_skill = 26 := by
  norm_num [Match.average_skill, c6_match, demo_player, demo_rating]

/-- C6 counterexample: with the three-player ping-20 CAN match and the
same-skill ping-101 candidate, a candidate that joined 61 seconds before
the current time is more than 60 seconds old, yet `is_player_fit` returns
(false, Disadvantage), because the source compares whole minutes
(`(age / 60) > 1`, needing at least 120 seconds), not seconds. -/
theorem c6_sixty_one_seconds_counterexample :
    ((10000 : ℤ) - 9939 > 60) ∧
      c6_match.is_player_fit (c6_cand 9939) (some 10000) = (false, .Disadvantage) := by
  refine ⟨by decide, fit_branch5_eval _ _ _ ?_ ?_ ?_ ?_ ?_ ?_⟩
  · simp [c6_cand, demo_player, c6_match, JoinMode.toInt, Match.MAX_PLAYERS]
  · simp [c6_cand, demo_player]
  · simp [c6_cand, demo_player]
  · rw [c6_avg_ping]
    simp only [c6_cand, demo_player, not_and]
    intro
    norm_num
  · rw [c6_avg_skill]
    have hmtm : more_than_minutes 1 (c6_cand 9939).join_time (some 10000) = false := by
      decide
    rintro (⟨-, hm⟩ | hsk)
    · rw [hmtm] at hm
      cases hm
    · rw [show c6_cand 9939 = demo_player 9 1 101 9939 from rfl] at hsk
      simp only [demo_player, demo_rating] at hsk
      norm_num at hsk
  · simp [c6_cand, demo_player]

/-- C6 amended: for the three-player ping-20 CAN match and the same-skill
ping-101 JoinRoom candidate in the same region, every join time at least
120 seconds before the current time (so that the whole minutes of age
exceed 1) makes `is_player_fit` return (true, Poor). -/
theorem c6_aged_candidate_poor (now jt : ℤ) (h : 120 ≤ now - jt) :
    c6_match.is_player_fit (c6_cand jt) (some now) = (true, .Poor) := by
  have hm : more_than_minutes 1 jt (some now) = true := by
    unfold more_than_minutes
    exact decide_eq_true ((tdiv_sixty_gt_iff (now - jt) 1 (by norm_num)).mpr (by omega))
  refine fit_branch4_eval _ _ _ ?_ ?_ ?_ ?_ ?_
  · simp [c6_cand, demo_player, c6_match, JoinMode.toInt, Match.MAX_PLAYERS]
  · simp [c6_cand, demo_player]
  · simp [c6_cand, demo_player]
  · rw [c6_avg_ping]
    simp only [c6_cand, demo_player, not_and]
    intro
    norm_num
  · exact Or.inl ⟨by simp [c6_cand, demo_player], hm⟩

/-- Witness for C6 amended at a candidate aged exactly 120 seconds. -/
theorem c6_aged_candidate_poor_witness :
    (120 : ℤ) ≤ 120 - 0 ∧
      c6_match.is_player_fit (c6_cand 0) (some 120) = (true, .Poor) :=
  ⟨by decide, c6_aged_candidate_poor 120 0 (by decide)⟩

theorem is_player_fit_admit_iff (m : Match) (p : QueuedPlayer) (ts : Option ℤ) :
    (m.is_player_fit p ts).1 = true ↔
      ¬(p.join_mode = JoinMode.CreateRoom.toInt ∨ Match.MAX_PLAYERS ≤ m.players.length ∨
          m.region ≠ p.region) ∧
      (p.ping < 50 ∨ p.ping < 100 ∨
        (p.ping < 150 ∧ m.average_ping + 25 > (p.ping : ℚ)) ∨
        ((p.ping < 150 ∧ more_than_minutes 1 p.join_time ts = true) ∨
          (p.ping : ℚ) + ((p.skillrating.rating + p.skillrating.loadout_modifier) /
            m.average_skill - 1) * 50 > 150) ∨
        (150 ≤ p.ping ∧ p.ping < 300 ∧ more_than_minutes 3 p.join_time ts = true)) := by
  unfold Match.is_player_fit
  by_cases h0 : p.join_mode = JoinMode.CreateRoom.toInt ∨
      Match.MAX_PLAYERS ≤ m.players.length ∨ m.region ≠ p.region
  · rw [if_pos h0]
    simp [h0]
  · rw [if_neg h0]
    dsimp only
    by_cases h1 : p.ping < 50
    · rw [if_pos h1]
      simp [h0, h1]
    · rw [if_neg h1]
      by_cases h2 : p.ping < 100
      · rw [if_pos h2]
        simp [h0, h2]
      · rw [if_neg h2]
        by_cases h3 : p.ping < 150 ∧ m.average_ping + 25 > (p.ping : ℚ)
        · rw [if_pos h3]
          simp [h0, h1, h2, h3]
        · rw [if_neg h3]
          by_cases h4 : (p.ping < 150 ∧ more_than_minutes 1 p.join_time ts = true) ∨
              (p.ping : ℚ) + ((p.skillrating.rating + p.skillrating.loadout_modifier) /
                m.average_skill - 1) * 50 > 150
          · rw [if_pos h4]
            simp [h0, h1, h2, h3, h4]
          · rw [if_neg h4]
            by_cases h5 : p.ping < 150
            · rw [if_pos h5]
              constructor
              · intro hb
                exact absurd hb (by simp)
              · rintro ⟨-, hc | hc | hc | hc | hc⟩
                · exact absurd hc h1
                · exact absurd hc h2
                · exact absurd hc h3
                · exact absurd hc h4
                · exact absurd hc.1 (by omega)
            · rw [if_neg h5]
              by_cases h6 : 150 ≤ p.ping ∧ p.ping < 300 ∧
                  more_than_minutes 3 p.join_time ts = true
              · rw [if_pos h6]
                constructor
                · intro _
                  exact ⟨h0, Or.inr (Or.inr (Or.inr (Or.inr h6)))⟩
                · intro _
                  rfl
              · rw [if_neg h6]
                constructor
                · intro hb
                  exact absurd hb (by simp)
                · rintro ⟨-, hc | hc | hc | hc | hc⟩
                  · exact absurd hc h1
                  · exact absurd hc h2
                  · exact absurd hc h3
                  · exact absurd hc h4
                  · exact absurd hc h6

/-- C7: for a fixed open match and a candidate fixed in everything except
its join time, admission by `is_player_fit` is monotone in age: admitted at
some age (evaluated at a given current time) implies admitted at every
greater age, that is at every earlier join time; and a candidate from a
different region is always rejected, whatever its age. -/
theorem c7_admission_monotone_region :
    (∀ (m : Match) (p : QueuedPlayer) (ts : Option ℤ) (t1 t2 : ℤ), t2 ≤ t1 →
        (m.is_player_fit { p with join_time := t1 } ts).1 = true →
        (m.is_player_fit { p with join_time := t2 } ts).1 = true) ∧
    (∀ (m : Match) (p : QueuedPlayer) (ts : Option ℤ), m.region ≠ p.region →
        (m.is_player_fit p ts).1 = false) := by
  constructor
  · intro m p ts t1 t2 hle h
    rw [is_player_fit_admit_iff] at h ⊢
    dsimp only at h ⊢
    obtain ⟨hhard, hd⟩ := h
    refine ⟨hhard, ?_⟩
    rcases hd with hc | hc | hc | hc | hc
    · exact Or.inl hc
    · exact Or.inr (Or.inl hc)
    · exact Or.inr (Or.inr (Or.inl hc))
    · rcases hc with ⟨hp, hm⟩ | hsk
      · exact Or.inr (Or.inr (Or.inr (Or.inl (Or.inl
          ⟨hp, more_than_minutes_mono 1 t1 t2 ts (by norm_num) hle hm⟩))))
      · exact Or.inr (Or.inr (Or.inr (Or.inl (Or.inr hsk))))
    · exact Or.inr (Or.inr (Or.inr (Or.inr
        ⟨hc.1, hc.2.1, more_than_minutes_mono 3 t1 t2 ts (by norm_num) hle hc.2.2⟩)))
  · intro m p ts hreg
    unfold Match.is_player_fit
    rw [if_pos (Or.inr (Or.inr hreg))]

/-- Witness for C7: an admitted candidate aged 120 seconds stays admitted
when aged 200 seconds, and a US candidate is rejected by a CAN match. -/
theorem c7_admission_monotone_region_witness :
    (c6_match.is_player_fit { c6_cand 0 with join_time := 0 } (some 200)).1 = true ∧
      (c6_match.is_player_fit member_us (some 0)).1 = false :=
  ⟨c7_admission_monotone_region.1 c6_match (c6_cand 0) (some 200) 80 0 (by norm_num)
      (show (c6_match.is_player_fit (c6_cand 80) (some 200)).1 = true by
        rw [c6_aged_candidate_poor 200 80 (by norm_num)]),
    c7_admission_monotone_region.2 c6_match member_us (some 0)
      (by simp [c6_match, member_us, demo_player])⟩

end MHTH

